/-
  Verification of the retrieval-augmented CSV-analysis pipeline.

  Shallow embedding of the core modules:
    - conversation_handler.py : numeric extraction, response validation,
      query orchestration (ConversationHandler)
    - data_embedder.py        : embedding store (DataEmbedder)
    - data_processor.py       : summary metrics (DataProcessor)
    - models/model_manager.py : backend registry (ModelManager)

  Conventions of the embedding:
    - Python floats are modelled as exact rationals (ℚ).
    - Python dicts are modelled as insertion-ordered association lists
      with overwrite-on-assignment semantics.
    - External effects (the vector store, the chat backends) enter as
      explicit oracle parameters describing their outcome, including the
      outcome "the call raised an exception".
    - A `try/except` block is modelled by an `Except`-valued core
      computation plus a total wrapper mapping the error case to the
      handler's fallback value.
-/
import Mathlib

namespace FinCsv

/-! ### Python float parsing

`parsePyFloat` models `float(s)` on the string shapes that arise in this
code base: optional sign, decimal digits with at most one dot, optional
decimal exponent, surrounding whitespace stripped.  (The `inf`/`nan`
spellings and underscore separators accepted by Python cannot arise from
the stringified CSV cells and regex tokens this pipeline feeds to
`float`, and are not modelled.)  Failure of `float` is `none`. -/

def charDigit (c : Char) : Nat := c.toNat - 48

def natOfDigits (ds : List Char) : Nat :=
  ds.foldl (fun n c => 10 * n + charDigit c) 0

/-- Leading/trailing whitespace stripping, as Python `float` applies to
its argument. -/
def trimChars (cs : List Char) : List Char :=
  ((cs.dropWhile Char.isWhitespace).reverse.dropWhile Char.isWhitespace).reverse

def parsePyFloat (s : String) : Option ℚ :=
  let cs := trimChars s.data
  let (sgn, cs1) : ℚ × List Char :=
    match cs with
    | '+' :: r => (1, r)
    | '-' :: r => (-1, r)
    | r => (1, r)
  let ip := cs1.takeWhile Char.isDigit
  let rest := cs1.dropWhile Char.isDigit
  let (fp, rest2) : List Char × List Char :=
    match rest with
    | '.' :: r => (r.takeWhile Char.isDigit, r.dropWhile Char.isDigit)
    | r => ([], r)
  if ip.isEmpty && fp.isEmpty then none
  else
    let mant : ℚ := sgn * ((natOfDigits ip : ℚ) + (natOfDigits fp : ℚ) / (10 ^ fp.length))
    match rest2 with
    | [] => some mant
    | e :: r =>
      if e = 'e' || e = 'E' then
        let (esgn, r2) : Int × List Char :=
          match r with
          | '+' :: t => (1, t)
          | '-' :: t => (-1, t)
          | t => (1, t)
        let ed := r2.takeWhile Char.isDigit
        let r3 := r2.dropWhile Char.isDigit
        if ed.isEmpty || !r3.isEmpty then none
        else some (mant * (10 : ℚ) ^ (esgn * (natOfDigits ed : Int)))
      else none

/-! ### Regex scanning for `_extract_numeric_values`

The two patterns of `ConversationHandler._extract_numeric_values`:
monetary tokens `\$?([\d,]+\.?\d*)` and percentage tokens `([\d.]+)%`,
with Python `re.findall` scanning semantics (leftmost non-overlapping
matches, scan position advancing by one character on a failed attempt).
All sub-patterns are greedy and — because the character classes involved
are disjoint from the literals that follow them — greedy matching without
backtracking is exact. -/

def isDigitOrComma (c : Char) : Bool := c.isDigit || c = ','

def isDigitOrDot (c : Char) : Bool := c.isDigit || c = '.'

/-- Match `[\d,]+\.?\d*` at the head of the input; return captured group
and remaining input. -/
def matchNumBody (cs : List Char) : Option (List Char × List Char) :=
  let p1 := cs.takeWhile isDigitOrComma
  if p1.isEmpty then none
  else
    let r1 := cs.dropWhile isDigitOrComma
    match r1 with
    | '.' :: r2 => some (p1 ++ '.' :: r2.takeWhile Char.isDigit, r2.dropWhile Char.isDigit)
    | _ => some (p1, r1)

/-- Match `\$?([\d,]+\.?\d*)` at the head of the input (the optional `$`
is tried greedily, falling back to the no-`$` alternative). -/
def matchMonetaryAt (cs : List Char) : Option (List Char × List Char) :=
  match cs with
  | '$' :: r =>
    (match matchNumBody r with
     | some g => some g
     | none => matchNumBody cs)
  | _ => matchNumBody cs

/-- Match `([\d.]+)%` at the head of the input. -/
def matchPercentAt (cs : List Char) : Option (List Char × List Char) :=
  let g := cs.takeWhile isDigitOrDot
  if g.isEmpty then none
  else
    match cs.dropWhile isDigitOrDot with
    | '%' :: rest => some (g, rest)
    | _ => none

/-- `re.findall` scan loop, fuel-bounded (fuel is an upper bound on the
input length, so it never runs out on the wrapper's call). -/
def findallAux (m : List Char → Option (List Char × List Char)) :
    Nat → List Char → List (List Char)
  | 0, _ => []
  | _ + 1, [] => []
  | n + 1, c :: cs =>
    match m (c :: cs) with
    | some (g, rest) => g :: findallAux m n rest
    | none => findallAux m n cs

def findallMonetary (s : String) : List (List Char) :=
  findallAux matchMonetaryAt (s.data.length + 1) s.data

def findallPercent (s : String) : List (List Char) :=
  findallAux matchPercentAt (s.data.length + 1) s.data

/-- The dict built by `_extract_numeric_values`; a key is absent exactly
when its list is empty, so the dict's truthiness is the disjunction of
the lists' non-emptiness. -/
structure NumericValues where
  monetary : List ℚ
  percentages : List ℚ
deriving DecidableEq

def stripCommas (cs : List Char) : List Char := cs.filter (fun c => c ≠ ',')

/-- `ConversationHandler._extract_numeric_values`.  A `float` failure on
any token raises inside the `try`, and the handler's `except` returns the
empty dict — discarding the values extracted so far. -/
def extractNumericValues (text : String) : NumericValues :=
  match (findallMonetary text).mapM (fun t => parsePyFloat (String.mk (stripCommas t))) with
  | none => ⟨[], []⟩
  | some ms =>
    match (findallPercent text).mapM (fun t => parsePyFloat (String.mk t)) with
    | none => ⟨[], []⟩
    | some ps => ⟨ms, ps⟩

/-! ### Metadata and response validation (`_validate_response`) -/

/-- A metadata value as stored in the vector index.  The embedder
stringifies every cell (`metadata[col] = str(val)`), but the dynamic
`isinstance(value, str)` guard in `_validate_response` also has to skip
non-string values, so both shapes are representable. -/
inductive MetaVal where
  | str (s : String)
  | num (q : ℚ)
deriving DecidableEq

/-- A metadata dict: insertion-ordered key/value pairs.  The empty list
models both a missing (`None`) and an empty (falsy) dict. -/
abbrev Metadata := List (String × MetaVal)

def hasDigit (s : String) : Bool := s.data.any Char.isDigit

def stripCommasDollars (s : String) : String :=
  String.mk (s.data.filter (fun c => !(c = ',' || c = '$')))

/-- Python dict assignment `d[k] = v`: overwrite in place if the key
exists, else append. -/
def dictAssign (d : List (String × ℚ)) (k : String) (v : ℚ) : List (String × ℚ) :=
  if d.any (fun p => p.1 = k) then d.map (fun p => if p.1 = k then (k, v) else p)
  else d ++ [(k, v)]

/-- The inner loop of `_validate_response` over one metadata dict:
string values containing a digit are coerced with commas and dollar
signs stripped; a `ValueError` from `float` skips the entry. -/
def contextValuesOfMeta (acc : List (String × ℚ)) (m : Metadata) : List (String × ℚ) :=
  m.foldl (fun acc kv =>
    match kv.2 with
    | .str s =>
      if hasDigit s then
        match parsePyFloat (stripCommasDollars s) with
        | some q => dictAssign acc kv.1 q
        | none => acc
      else acc
    | .num _ => acc) acc

/-- `context_values` accumulated over `context_data["metadatas"][0]`. -/
def contextValues (ms : List Metadata) : List (String × ℚ) :=
  ms.foldl contextValuesOfMeta []

/-- Python `max` over a list; `none` models the `ValueError` raised on an
empty collection. -/
def pyMax : List ℚ → Option ℚ
  | [] => none
  | x :: xs => some (xs.foldl max x)

/-- The query-result dict as `process_query`/`query_data` see it.  A
field of `none` models a missing key. -/
structure RawResult where
  documents : Option (List (List String))
  metadatas : Option (List (List Metadata))
  distances : Option (List (List ℚ))
  ids : Option (List (List String))
deriving DecidableEq

/-- Body of the `try` in `ConversationHandler._validate_response`.
`Except.error ()` marks the points where the Python code raises inside
the `try`: indexing `metadatas[0]` on an empty list, and `max` over an
empty `context_values`. -/
def validateResponseCore (response : String) (contextData : RawResult) : Except Unit Bool :=
  let rv := extractNumericValues response
  if rv.monetary.isEmpty && rv.percentages.isEmpty then Except.ok true
  else
    match (match contextData.metadatas with
           | none => some ([] : List Metadata)
           | some [] => none
           | some (m :: _) => some m) with
    | none => Except.error ()
    | some m0 =>
      let cv := contextValues m0
      match pyMax (cv.map Prod.snd) with
      | none => Except.error ()
      | some mx =>
        Except.ok ((rv.monetary ++ rv.percentages).all
          (fun v => !decide (v > mx * (11 / 10))))

/-- `ConversationHandler._validate_response`: the `except` clause accepts
the response whenever the core computation raises. -/
def validateResponse (response : String) (contextData : RawResult) : Bool :=
  match validateResponseCore response contextData with
  | .ok b => b
  | .error _ => true

/-! ### ModelRegistry (`models/model_manager.py`) -/

/-- An initialized backend client, abstracted to an identifier. -/
abbrev Client := Nat

/-- `ModelManager` state: the active backend name, the fixed fallback
name, and the `clients` dict (a configured backend maps to `some`
client when its startup probe succeeded and to `none` when
initialization failed). -/
structure ModelManager where
  current : String
  fallback : String
  clients : List (String × Option Client)
deriving DecidableEq

def hasKey (d : List (String × α)) (k : String) : Bool := d.any (fun p => p.1 = k)

/-- `self.clients.get(k)`: `none` both when the key is absent and when
the stored value is `None`. -/
def clientsGet (d : List (String × Option Client)) (k : String) : Option Client :=
  match d.find? (fun p => p.1 = k) with
  | some p => p.2
  | none => none

/-- `ModelManager.get_client`.  `name?` is the optional argument; Python
`model_name or self.current_model` also falls back to the current model
on an empty-string argument. -/
def getClient (mm : ModelManager) (name? : Option String) : Option Client :=
  let requested :=
    match name? with
    | some n => if n = "" then mm.current else n
    | none => mm.current
  let model := if hasKey mm.clients requested then requested else mm.fallback
  match clientsGet mm.clients model with
  | some c => some c
  | none =>
    if model ≠ mm.fallback then clientsGet mm.clients mm.fallback else none

/-- `ModelManager.set_model`.  `probe name` is the outcome oracle for
`_test_model`: `none` means the re-probe succeeded, `some e` that it
raised an exception whose message is `e`. -/
def setModel (mm : ModelManager) (probe : String → Option String) (name : String) :
    (Bool × String) × ModelManager :=
  match mm.clients.find? (fun p => p.1 = name) with
  | none => ((false, "Model " ++ name ++ " not available"), mm)
  | some p =>
    match p.2 with
    | none => ((false, "Model " ++ name ++ " failed to initialize"), mm)
    | some _ =>
      match probe name with
      | none => ((true, "Successfully switched to " ++ name), { mm with current := name })
      | some e => ((false, "Failed to switch to " ++ name ++ ": " ++ e), mm)

def availableModels (mm : ModelManager) : List String :=
  (mm.clients.filter (fun p => p.2.isSome)).map Prod.fst

/-- `ConversationHandler` state: its own `current_model` field (distinct
from the manager's) plus the managed registry. -/
structure HandlerState where
  currentModel : String
  mm : ModelManager
deriving DecidableEq

/-- `ConversationHandler.set_model`: checks against the manager's
available models and updates only the handler's own field. -/
def handlerSetModel (hs : HandlerState) (name : String) : (Bool × String) × HandlerState :=
  if !(availableModels hs.mm).contains name then
    ((false, "Model " ++ name ++ " not available"), hs)
  else
    ((true, "Switched to " ++ name), { hs with currentModel := name })

/-! ### QueryEngine orchestration (`ConversationHandler.process_query`) -/

/-- The value returned by `data_embedder.query_data` as `process_query`
inspects it dynamically.  `pyNone` models any falsy return (Python
`None` or an empty dict), `notDict` a non-dict value; `dict r` is a
non-empty dict with the optional keys of `RawResult`. -/
inductive Retrieved where
  | pyNone
  | notDict
  | dict (r : RawResult)
deriving DecidableEq

/-- Outcome oracle for the chat-completion round trip in
`process_query`: the call raised, returned a falsy response or one with
no choices, or returned a message with the given content. -/
inductive BackendOutcome where
  | raised
  | noChoices
  | content (s : String)
deriving DecidableEq

def msgTroubleAccess : String := "I'm having trouble accessing the data. Please try again."

def msgBadStructure : String := "The data structure seems incorrect. Please try again."

def msgIncomplete : String :=
  "The data structure seems incomplete. Please try a different question."

def msgNoRelevantData : String :=
  "I couldn't find any relevant data to answer your question. Please try rephrasing or ask about different aspects of the data."

def msgInconsistent : String := "There seems to be a data inconsistency. Please try again."

def msgNoValidContext : String :=
  "I couldn't process the data properly. Please try a different question."

def msgNoClient : String := "Error: AI model not available. Please try again later."

def msgNoConfig : String := "Error: Model configuration not found."

def msgInvalidResponse : String := "I received an invalid response. Please try again."

def msgValidationFailed : String :=
  "I apologize, but I may have generated incorrect calculations. Please try rephrasing your question."

def msgInternalError : String :=
  "I encountered an error while processing your question. Please try again or rephrase your question."

/-- The keys of `Config.AVAILABLE_MODELS` (config.py). -/
def availableModelNames : List String := ["OpenAI GPT-4", "Local Llama3.2"]

/-- `metadata.get("source_name", "unknown source")`. -/
def metaGetSource (m : Metadata) : String :=
  match m.find? (fun p => p.1 = "source_name") with
  | some (_, .str s) => s
  | some (_, .num q) => toString q
  | none => "unknown source"

/-- The context-entry loop of `process_query`: zip documents with
metadata, drop pairs where either side is falsy, render
`"From <source>: <doc>"`. -/
def contextEntries (docs : List String) (metas : List Metadata) : List String :=
  (docs.zip metas).filterMap (fun p =>
    if p.1 ≠ "" && p.2 ≠ ([] : Metadata) then
      some ("From " ++ metaGetSource p.2 ++ ": " ++ p.1)
    else none)

/-- `ConversationHandler.process_query`, with the retrieval result and
the backend round trip supplied as oracles.  The function is total: the
outer `try/except` of the Python code maps every exception raised inside
the body to `msgInternalError`; within this model such an exception
arises exactly when `metadatas` is the empty list (an `IndexError` at
`relevant_data["metadatas"][0]`) and when the backend call itself
raises. -/
def processQuery (hs : HandlerState) (retrieved : Retrieved) (backend : BackendOutcome) : String :=
  match retrieved with
  | .pyNone => msgTroubleAccess
  | .notDict => msgBadStructure
  | .dict r =>
    match r.documents, r.metadatas, r.distances with
    | some docs, some metas, some _ =>
      match docs with
      | [] => msgNoRelevantData
      | d0 :: _ =>
        if d0.isEmpty then msgNoRelevantData
        else
          match metas with
          | [] => msgInternalError
          | m0 :: _ =>
            if d0.length ≠ m0.length then msgInconsistent
            else
              let entries := contextEntries d0 m0
              if entries.isEmpty then msgNoValidContext
              else
                match getClient hs.mm none with
                | none => msgNoClient
                | some _ =>
                  if !availableModelNames.contains hs.currentModel then msgNoConfig
                  else
                    match backend with
                    | .raised => msgInternalError
                    | .noChoices => msgInvalidResponse
                    | .content ans =>
                      if !validateResponse ans r then msgValidationFailed
                      else ans
    | _, _, _ => msgIncomplete

/-! ### EmbeddingStore retrieval (`DataEmbedder.query_data`) -/

/-- Outcome oracle for `self.collection.query`: the transport raised, or
it returned some Python value. -/
inductive ChromaOutcome where
  | raised
  | result (v : Retrieved)
deriving DecidableEq

/-- `DataEmbedder._get_default_response`. -/
def defaultResponse : RawResult :=
  { documents := some [[]], metadatas := some [[]], distances := some [[]], ids := some [[]] }

/-- `DataEmbedder.query_data`: returns the default empty structure when
the collection is uninitialized, the call raises, the result is falsy or
not a dict, or a required field is missing — and otherwise returns the
result unchanged. -/
def queryData (initialized : Bool) (outcome : ChromaOutcome) : RawResult :=
  if !initialized then defaultResponse
  else
    match outcome with
    | .raised => defaultResponse
    | .result .pyNone => defaultResponse
    | .result .notDict => defaultResponse
    | .result (.dict r) =>
      if r.documents.isNone || r.metadatas.isNone || r.distances.isNone then defaultResponse
      else r

/-! ### TableIngestor summary metrics (`data_processor.py`)

Floats are rationals; a pandas `NaN` cell (failed numeric coercion) is
`none`, and the pandas `skipna` conventions are modelled explicitly:
`sum` ignores `NaN`, `mean` divides by the count of non-`NaN` entries,
`groupby(...).sum()` produces a plain number per group. -/

def matchesAt (hay needle : List Char) : Bool :=
  match needle, hay with
  | [], _ => true
  | _ :: _, [] => false
  | n :: ns, h :: hs => n = h && matchesAt hs ns

/-- Substring test, modelling Python `needle in hay`. -/
def containsSub (hay needle : List Char) : Bool :=
  match hay with
  | [] => needle.isEmpty
  | _ :: t => matchesAt hay needle || containsSub t needle

def monetaryTerms : List String := ["budget", "amount", "cost", "price", "revenue"]

/-- ASCII case lowering, modelling `str.lower()` on the column names this
pipeline compares against its (all-ASCII) monetary vocabulary. -/
def lowerChar (c : Char) : Char :=
  if 65 ≤ c.toNat && c.toNat ≤ 90 then Char.ofNat (c.toNat + 32) else c

def lowerData (s : String) : List Char := s.data.map lowerChar

/-- `any(term in col.lower() for term in [...])`. -/
def isMonetaryName (name : String) : Bool :=
  monetaryTerms.any (fun t => containsSub (lowerData name) t.data)

/-- A loaded table as `get_summary_metrics` consumes it: the optional
`project_id` column (one key per row) and the numeric columns with
their post-coercion values (`none` = NaN). -/
structure FinTable where
  projectIds : Option (List String)
  numericCols : List (String × List (Option ℚ))
deriving DecidableEq

def sumSkipNa (vs : List (Option ℚ)) : ℚ :=
  vs.foldl (fun a v => match v with | some q => a + q | none => a) 0

def countNonNa (vs : List (Option ℚ)) : Nat := vs.countP Option.isSome

/-- `float(series.mean())` under skipna semantics.  (pandas yields NaN
on an all-NaN series; ℚ has no NaN, so that case — excluded by the
theorems' hypotheses — collapses to 0 via division by zero.) -/
def pyMean (vs : List (Option ℚ)) : ℚ := sumSkipNa vs / (countNonNa vs : ℚ)

def pyMaxD (vs : List (Option ℚ)) : ℚ :=
  match pyMax (vs.filterMap id) with | some q => q | none => 0

def pyMinOpt : List ℚ → Option ℚ
  | [] => none
  | x :: xs => some (xs.foldl min x)

def pyMinD (vs : List (Option ℚ)) : ℚ :=
  match pyMinOpt (vs.filterMap id) with | some q => q | none => 0

/-- First-occurrence list of distinct group keys.  (pandas `groupby`
sorts its keys; every statistic taken over the per-group sums below is
order-invariant, so first-occurrence order is an equivalent
presentation.) -/
def distinctKeys (ks : List String) : List String :=
  ks.foldl (fun acc k => if acc.contains k then acc else acc ++ [k]) []

/-- Sum of the column entries belonging to one project key (skipna). -/
def groupSum (pids : List String) (vs : List (Option ℚ)) (k : String) : ℚ :=
  sumSkipNa ((pids.zip vs).filterMap (fun p => if p.1 = k then some p.2 else none))

/-- `DataProcessor._aggregate_by_project` when a `project_id` column is
present: `df.groupby("project_id")[col].sum()`, one sum per project. -/
def aggregateByProject (pids : List String) (vs : List (Option ℚ)) : List ℚ :=
  (distinctKeys pids).map (groupSum pids vs)

/-- The series `get_summary_metrics` takes its statistics over for one
numeric column: per-project sums for a monetary column when
`project_id` is present, otherwise the raw values. -/
def seriesForCol (t : FinTable) (name : String) (vs : List (Option ℚ)) : List (Option ℚ) :=
  if isMonetaryName name then
    match t.projectIds with
    | some pids => (aggregateByProject pids vs).map some
    | none => vs
  else vs

/-- `DataProcessor.get_summary_metrics`: the emitted metric dict as an
ordered list of (name, value) pairs. -/
def getSummaryMetrics (t : FinTable) : List (String × ℚ) :=
  t.numericCols.foldl (fun acc c =>
    let s := seriesForCol t c.1 c.2
    acc ++ [("total_" ++ c.1, sumSkipNa s), ("average_" ++ c.1, pyMean s),
            ("max_" ++ c.1, pyMaxD s), ("min_" ++ c.1, pyMinD s)]) []

/-- Modelled from the spec: statistics taken directly over the sequence
of per-project sums (sum of the column grouped by `project_id`), the
aggregation level the spec prescribes for monetary columns. -/
def specProjectLevelStats (pids : List String) (vs : List (Option ℚ)) : ℚ × ℚ × ℚ × ℚ :=
  let sums := aggregateByProject pids vs
  (sums.sum, sums.sum / (sums.length : ℚ),
   match pyMax sums with | some q => q | none => 0,
   match pyMinOpt sums with | some q => q | none => 0)

/-- Flat row-level mean of a column, the aggregation the spec says must
NOT be reported for monetary columns. -/
def flatMean (vs : List (Option ℚ)) : ℚ := pyMean vs

/-! ### EmbeddingStore ingestion (`DataEmbedder.embed_data`)

The sha256 content fingerprint is modelled as the table content itself
(a collision-free abstraction: two tables have equal fingerprints iff
their contents are equal). -/

/-- A dataframe handed to `embed_data`: column names and stringified
row contents. -/
structure EmbTable where
  cols : List String
  rows : List (List String)
deriving DecidableEq

/-- One entry of `self.file_metadata`. -/
structure FileMeta where
  sourceName : String
  numRows : Nat
  columns : List String
deriving DecidableEq

/-- `DataEmbedder` state: `file_metadata` (dict keyed by the stringified
running index, hence a list), `file_hashes`, and the ids stored in the
persistent collection. -/
structure EmbStore where
  fileMetadata : List FileMeta
  fileHashes : List (String × EmbTable)
  records : List String
deriving DecidableEq

def hashesGet (d : List (String × EmbTable)) (k : String) : Option EmbTable :=
  (d.find? (fun p => p.1 = k)).map Prod.snd

def hashesAssign (d : List (String × EmbTable)) (k : String) (v : EmbTable) :
    List (String × EmbTable) :=
  if d.any (fun p => p.1 = k) then d.map (fun p => if p.1 = k then (k, v) else p)
  else d ++ [(k, v)]

/-- `DataEmbedder._is_file_embedded`. -/
def isFileEmbedded (st : EmbStore) (t : EmbTable) (sourceName : String) : Bool :=
  match hashesGet st.fileHashes sourceName with
  | some h => h = t
  | none => false

def batchSize : Nat := 100

/-- Iterations of `range(0, len(df), batch_size)`. -/
def numBatches (n : Nat) : Nat := (n + batchSize - 1) / batchSize

/-- The record ids of batch `i`: `f"file_{file_id}_row_{idx}"` for each
row index in the batch. -/
def batchIds (fileId : String) (nRows i : Nat) : List String :=
  (((List.range nRows).drop (i * batchSize)).take batchSize).map
    (fun idx => "file_" ++ fileId ++ "_row_" ++ toString idx)

/-- The batch loop of `embed_data`.  `failAt = some j` is the outcome
oracle "the `collection.add` call of batch `j` raises"; the surrounding
`except` then returns `false` with the records of the earlier batches
already persisted. -/
def addBatches (fileId : String) (nRows : Nat) (failAt : Option Nat) :
    Nat → Nat → EmbStore → Bool × EmbStore
  | _, 0, st => (true, st)
  | i, r + 1, st =>
    if failAt = some i then (false, st)
    else addBatches fileId nRows failAt (i + 1) r
      { st with records := st.records ++ batchIds fileId nRows i }

/-- `DataEmbedder.embed_data`: the already-embedded check, then metadata
and fingerprint recording, then the batch loop. -/
def embedData (st : EmbStore) (t : EmbTable) (sourceName : String) (failAt : Option Nat) :
    Bool × EmbStore :=
  let fileId := toString st.fileMetadata.length
  if isFileEmbedded st t sourceName then (true, st)
  else
    let st1 : EmbStore :=
      { st with
        fileMetadata := st.fileMetadata ++ [⟨sourceName, t.rows.length, t.cols⟩],
        fileHashes := hashesAssign st.fileHashes sourceName t }
    addBatches fileId t.rows.length failAt 0 (numBatches t.rows.length) st1

/-- The fixed user-facing messages `process_query` can return. -/
def fixedMessages : List String :=
  [msgTroubleAccess, msgBadStructure, msgIncomplete, msgNoRelevantData, msgInconsistent,
   msgNoValidContext, msgNoClient, msgNoConfig, msgInvalidResponse, msgValidationFailed,
   msgInternalError]

/-- The QueryResult length invariant of the spec:
`len(documents[0]) == len(metadatas[0]) == len(distances[0])`. -/
def resultLenOk (r : RawResult) : Bool :=
  ((r.documents.getD []).headD []).length = ((r.metadatas.getD []).headD []).length &&
  ((r.metadatas.getD []).headD []).length = ((r.distances.getD []).headD []).length

/-- Modelled from the spec: "every numeric value present in the
retrieved metadata" — the numeric values found across ALL entries of all
retrieved metadata dicts, with no per-key overwriting.  This is the
bound base the spec names; the code's `context_values` dict instead
keeps only the last-written value per key. -/
def specContextNumericValues (ms : List Metadata) : List ℚ :=
  (ms.map (fun m => m.filterMap (fun kv =>
    match kv.2 with
    | .str s => if hasDigit s then parsePyFloat (stripCommasDollars s) else none
    | .num _ => none))).flatten

/-! ## Helper lemmas -/

theorem addBatches_fileHashes (fid n f) : ∀ r i st,
    ((addBatches fid n f i r st).2).fileHashes = st.fileHashes := by
  intro r
  induction r with
  | zero => intro i st; rfl
  | succ r ih =>
    intro i st
    unfold addBatches
    by_cases h : f = some i
    · simp [h]
    · simp [h, ih]

theorem addBatches_none_true (fid n) : ∀ r i st,
    (addBatches fid n none i r st).1 = true := by
  intro r
  induction r with
  | zero => intro i st; rfl
  | succ r ih => intro i st; unfold addBatches; simp [ih]

theorem hashesGet_append_new (k : String) (v : EmbTable) :
    ∀ d : List (String × EmbTable), (∀ p ∈ d, ¬ p.1 = k) →
      hashesGet (d ++ [(k, v)]) k = some v := by
  intro d
  induction d with
  | nil => intro _; simp [hashesGet]
  | cons q tl ih =>
    intro h
    have hq : ¬ q.1 = k := h q (List.mem_cons_self q tl)
    unfold hashesGet
    rw [List.cons_append, List.find?_cons_of_neg _ (by simpa using hq)]
    exact ih (fun p hp => h p (List.mem_cons_of_mem q hp))

theorem hashesGet_map_assign (k : String) (v : EmbTable) :
    ∀ d : List (String × EmbTable), (∃ p ∈ d, p.1 = k) →
      hashesGet (d.map (fun p => if p.1 = k then (k, v) else p)) k = some v := by
  intro d
  induction d with
  | nil => rintro ⟨p, hp, _⟩; cases hp
  | cons q tl ih =>
    rintro ⟨p, hp, hpk⟩
    by_cases hq : q.1 = k
    · unfold hashesGet
      rw [List.map_cons, if_pos hq, List.find?_cons_of_pos _ (by simp)]
      rfl
    · have hmem : p ∈ tl := by
        rcases List.mem_cons.mp hp with h1 | h1
        · exact absurd (h1 ▸ hpk) hq
        · exact h1
      unfold hashesGet
      rw [List.map_cons, if_neg hq, List.find?_cons_of_neg _ (by simpa using hq)]
      exact ih ⟨p, hmem, hpk⟩

theorem hashesGet_assign (d : List (String × EmbTable)) (k : String) (v : EmbTable) :
    hashesGet (hashesAssign d k v) k = some v := by
  unfold hashesAssign
  by_cases h : (d.any (fun p => p.1 = k)) = true
  · rw [if_pos h]
    refine hashesGet_map_assign k v d ?_
    obtain ⟨p, hp, hpk⟩ := List.any_eq_true.mp h
    exact ⟨p, hp, by simpa using hpk⟩
  · rw [if_neg h]
    refine hashesGet_append_new k v d ?_
    intro p hp
    have := List.any_eq_false.mp (Bool.eq_false_iff.mpr h) p hp
    simpa using this

theorem embed_then_embedded (st : EmbStore) (t : EmbTable) (src : String) (f : Option Nat) :
    isFileEmbedded (embedData st t src f).2 t src = true := by
  unfold embedData
  by_cases h : isFileEmbedded st t src = true
  · simp [h]
  · simp only [Bool.not_eq_true] at h
    simp only [h, Bool.false_eq_true, if_false]
    unfold isFileEmbedded
    rw [addBatches_fileHashes]
    simp [hashesGet_assign]

theorem addBatches_fail (fid : String) (n k : Nat) : ∀ r i st, i ≤ k → k < i + r →
    addBatches fid n (some k) i r st =
      (false, { st with
        records := st.records ++ ((List.range' i (k - i)).map (batchIds fid n)).flatten }) := by
  intro r
  induction r with
  | zero => intro i st h1 h2; omega
  | succ r ih =>
    intro i st h1 h2
    unfold addBatches
    by_cases hik : i = k
    · subst hik
      simp
    · rw [if_neg (by simp; omega)]
      rw [ih (i + 1) _ (by omega) (by omega)]
      have hki : k - i = (k - (i + 1)) + 1 := by omega
      rw [hki, List.range'_succ, List.map_cons, List.flatten_cons, List.append_assoc]

/-! ## Claims -/

/-- C4: embedding is idempotent on unchanged content — once
`embed_data` has succeeded for a table and source name, calling it again
with the identical content and the same source name succeeds via the
fingerprint check, leaves the store state (in particular the stored
record count) unchanged, and adds no records regardless of how the
vector index would have behaved. -/
theorem embed_idempotent (st : EmbStore) (t : EmbTable) (src : String) (f : Option Nat)
    (h : (embedData st t src none).1 = true) :
    embedData (embedData st t src none).2 t src f = (true, (embedData st t src none).2) ∧
    ((embedData (embedData st t src none).2 t src f).2).records.length =
      ((embedData st t src none).2).records.length := by
  have he := embed_then_embedded st t src none
  revert he
  generalize (embedData st t src none).2 = st1
  intro he
  have hmain : embedData st1 t src f = (true, st1) := by
    unfold embedData
    simp [he]
  exact ⟨hmain, by rw [hmain]⟩

/-- Witness for C4 at a concrete store and table. -/
theorem embed_idempotent_witness :
    embedData (embedData ⟨[], [], []⟩ ⟨["a"], [["1"], ["2"]]⟩ "src" none).2
        ⟨["a"], [["1"], ["2"]]⟩ "src" none =
      (true, (embedData (⟨[], [], []⟩ : EmbStore) ⟨["a"], [["1"], ["2"]]⟩ "src" none).2) :=
  (embed_idempotent ⟨[], [], []⟩ ⟨["a"], [["1"], ["2"]]⟩ "src" none (by decide)).1

/-- C10: `embed_data` records the content fingerprint (and file
metadata) before any batch is written, so when the vector-index write of
some batch fails, the call returns `false` with only the earlier batches
persisted — yet an immediately repeated call with the identical table
and source name returns `true` through the already-embedded check,
without ever writing the rows the failed run never persisted. -/
theorem embed_failure_fingerprint_first (st : EmbStore) (t : EmbTable) (src : String)
    (k : Nat) (f' : Option Nat)
    (hne : isFileEmbedded st t src = false)
    (hk : k < numBatches t.rows.length) :
    (embedData st t src (some k)).1 = false ∧
    hashesGet ((embedData st t src (some k)).2).fileHashes src = some t ∧
    ((embedData st t src (some k)).2).records =
      st.records ++
        ((List.range k).map (batchIds (toString st.fileMetadata.length) t.rows.length)).flatten ∧
    embedData (embedData st t src (some k)).2 t src f' =
      (true, (embedData st t src (some k)).2) := by
  have hne' : ¬ isFileEmbedded st t src = true := by simp [hne]
  have hst : embedData st t src (some k) =
      (false, { fileMetadata := st.fileMetadata ++ [⟨src, t.rows.length, t.cols⟩],
                fileHashes := hashesAssign st.fileHashes src t,
                records := st.records ++
                  ((List.range' 0 (k - 0)).map
                    (batchIds (toString st.fileMetadata.length) t.rows.length)).flatten }) := by
    unfold embedData
    rw [if_neg hne']
    exact addBatches_fail _ _ k (numBatches t.rows.length) 0 _ (Nat.zero_le k) (by omega)
  have hrepeat : embedData (embedData st t src (some k)).2 t src f' =
      (true, (embedData st t src (some k)).2) := by
    have he := embed_then_embedded st t src (some k)
    revert he
    generalize (embedData st t src (some k)).2 = st2
    intro he
    unfold embedData
    simp [he]
  refine ⟨by rw [hst], ?_, ?_, hrepeat⟩
  · rw [hst]
    exact hashesGet_assign st.fileHashes src t
  · rw [hst]
    simp [List.range_eq_range']

/-- Witness for C10: a one-row table whose single batch write fails. -/
theorem embed_failure_fingerprint_first_witness :
    (embedData (⟨[], [], []⟩ : EmbStore) ⟨["a"], [["x"]]⟩ "s" (some 0)).1 = false ∧
    hashesGet ((embedData (⟨[], [], []⟩ : EmbStore) ⟨["a"], [["x"]]⟩ "s" (some 0)).2).fileHashes
      "s" = some ⟨["a"], [["x"]]⟩ :=
  ⟨(embed_failure_fingerprint_first ⟨[], [], []⟩ ⟨["a"], [["x"]]⟩ "s" 0 none (by decide)
      (by decide)).1,
   (embed_failure_fingerprint_first ⟨[], [], []⟩ ⟨["a"], [["x"]]⟩ "s" 0 none (by decide)
      (by decide)).2.1⟩

theorem foldl_append_blocks (g : α → List β) : ∀ (l : List α) (a : List β),
    l.foldl (fun acc c => acc ++ g c) a = a ++ (l.map g).flatten := by
  intro l
  induction l with
  | nil => intro a; simp
  | cons c tl ih => intro a; simp [ih]

theorem getSummaryMetrics_eq (t : FinTable) :
    getSummaryMetrics t = (t.numericCols.map (fun c =>
      [("total_" ++ c.1, sumSkipNa (seriesForCol t c.1 c.2)),
       ("average_" ++ c.1, pyMean (seriesForCol t c.1 c.2)),
       ("max_" ++ c.1, pyMaxD (seriesForCol t c.1 c.2)),
       ("min_" ++ c.1, pyMinD (seriesForCol t c.1 c.2))])).flatten := by
  unfold getSummaryMetrics
  rw [foldl_append_blocks]
  simp

theorem sumSkipNa_map_some (l : List ℚ) : sumSkipNa (l.map some) = l.sum := by
  have key : ∀ (l : List ℚ) (a : ℚ),
      (l.map some).foldl (fun a v => match v with | some q => a + q | none => a) a =
        a + l.sum := by
    intro l
    induction l with
    | nil => intro a; simp
    | cons x tl ih => intro a; simp [ih]; ring
  simpa [sumSkipNa] using key l 0

theorem countNonNa_map_some (l : List ℚ) : countNonNa (l.map some) = l.length := by
  induction l with
  | nil => rfl
  | cons x tl ih =>
    simp only [countNonNa, List.map_cons, List.countP_cons, Option.isSome_some] at ih ⊢
    simp [ih]

theorem pyMean_map_some (l : List ℚ) : pyMean (l.map some) = l.sum / (l.length : ℚ) := by
  simp [pyMean, sumSkipNa_map_some, countNonNa_map_some]

theorem filterMap_id_map_some (l : List ℚ) : (l.map some).filterMap id = l := by
  induction l with
  | nil => rfl
  | cons x tl ih => simp [ih]

theorem pyMaxD_map_some (l : List ℚ) :
    pyMaxD (l.map some) = match pyMax l with | some q => q | none => 0 := by
  simp [pyMaxD, filterMap_id_map_some]

theorem pyMinD_map_some (l : List ℚ) :
    pyMinD (l.map some) = match pyMinOpt l with | some q => q | none => 0 := by
  simp [pyMinD, filterMap_id_map_some]

theorem mem_summary_metrics (t : FinTable) (name : String) (vs : List (Option ℚ))
    (hc : (name, vs) ∈ t.numericCols) :
    ("total_" ++ name, sumSkipNa (seriesForCol t name vs)) ∈ getSummaryMetrics t ∧
    ("average_" ++ name, pyMean (seriesForCol t name vs)) ∈ getSummaryMetrics t ∧
    ("max_" ++ name, pyMaxD (seriesForCol t name vs)) ∈ getSummaryMetrics t ∧
    ("min_" ++ name, pyMinD (seriesForCol t name vs)) ∈ getSummaryMetrics t := by
  rw [getSummaryMetrics_eq]
  have hb := List.mem_map_of_mem (fun c : String × List (Option ℚ) =>
      [("total_" ++ c.1, sumSkipNa (seriesForCol t c.1 c.2)),
       ("average_" ++ c.1, pyMean (seriesForCol t c.1 c.2)),
       ("max_" ++ c.1, pyMaxD (seriesForCol t c.1 c.2)),
       ("min_" ++ c.1, pyMinD (seriesForCol t c.1 c.2))]) hc
  exact ⟨List.mem_flatten.mpr ⟨_, hb, by simp⟩, List.mem_flatten.mpr ⟨_, hb, by simp⟩,
         List.mem_flatten.mpr ⟨_, hb, by simp⟩, List.mem_flatten.mpr ⟨_, hb, by simp⟩⟩

/-- C2: for a table with a `project_id` column, the summary metrics of a
monetary-named numeric column are the total/average/max/min of the
per-project sums (the spec-side `specProjectLevelStats`), not of the raw
row values; concretely, two rows of the same project with amounts 100
and 50 yield `average_amount = 150`, while the flat row-level average
would be 75. -/
theorem summary_metrics_project_level (t : FinTable) (pids : List String)
    (name : String) (vs : List (Option ℚ))
    (hp : t.projectIds = some pids)
    (hm : isMonetaryName name = true)
    (hc : (name, vs) ∈ t.numericCols) :
    (("total_" ++ name, (specProjectLevelStats pids vs).1) ∈ getSummaryMetrics t ∧
     ("average_" ++ name, (specProjectLevelStats pids vs).2.1) ∈ getSummaryMetrics t ∧
     ("max_" ++ name, (specProjectLevelStats pids vs).2.2.1) ∈ getSummaryMetrics t ∧
     ("min_" ++ name, (specProjectLevelStats pids vs).2.2.2) ∈ getSummaryMetrics t) ∧
    (getSummaryMetrics ⟨some ["P1", "P1"], [("amount", [some 100, some 50])]⟩ =
       [("total_amount", 150), ("average_amount", 150),
        ("max_amount", 150), ("min_amount", 150)] ∧
     flatMean [some 100, some 50] = 75 ∧ (150 : ℚ) ≠ 75) := by
  have hmono : isMonetaryName "amount" = true := by decide
  refine ⟨?_,
    by norm_num [getSummaryMetrics, seriesForCol, hmono, aggregateByProject, distinctKeys,
          groupSum, sumSkipNa, pyMean, countNonNa, pyMaxD, pyMinD, pyMax, pyMinOpt,
          List.foldl_cons, List.foldl_nil, List.filterMap_cons, List.filterMap_nil,
          List.countP_cons, List.countP_nil, Prod.mk.injEq]
      <;> decide,
    by norm_num [flatMean, pyMean, sumSkipNa, countNonNa, List.foldl_cons, List.foldl_nil,
          List.countP_cons, List.countP_nil],
    by norm_num⟩
  have hs : seriesForCol t name vs = (aggregateByProject pids vs).map some := by
    simp [seriesForCol, hm, hp]
  have hmem := mem_summary_metrics t name vs hc
  rw [hs, sumSkipNa_map_some, pyMean_map_some, pyMaxD_map_some, pyMinD_map_some] at hmem
  simpa [specProjectLevelStats] using hmem

/-- Witness for C2 at the spec's distinguishing two-row table. -/
theorem summary_metrics_project_level_witness :
    ("average_amount", (specProjectLevelStats ["P1", "P1"] [some 100, some 50]).2.1) ∈
      getSummaryMetrics ⟨some ["P1", "P1"], [("amount", [some 100, some 50])]⟩ :=
  (summary_metrics_project_level ⟨some ["P1", "P1"], [("amount", [some 100, some 50])]⟩
      ["P1", "P1"] "amount" [some 100, some 50] rfl (by decide)
      (List.mem_singleton.mpr rfl)).1.2.1

/-- C5 counterexample: `query_data` does not validate equal lengths at
index 0.  A dict that is truthy, well-typed and carries all three
required fields — but with two documents against zero metadata entries —
is returned unchanged, violating the claimed invariant
`len(documents[0]) == len(metadatas[0]) == len(distances[0])`. -/
theorem query_result_invariant_counterexample :
    queryData true (.result (.dict ⟨some [["a", "b"]], some [[]], some [[(0 : ℚ)]], some [[]]⟩)) =
      ⟨some [["a", "b"]], some [[]], some [[(0 : ℚ)]], some [[]]⟩ ∧
    resultLenOk ⟨some [["a", "b"]], some [[]], some [[(0 : ℚ)]], some [[]]⟩ = false :=
  ⟨rfl, rfl⟩

/-- C5 (amended): on every query, `query_data` validates that the result
is truthy, is a dict and contains the `documents`, `metadatas` and
`distances` fields, substituting the default empty structure (whose
index-0 sequences all have length 0) whenever that validation — or the
underlying call — fails; equal lengths are NOT checked, so any returned
non-default result is exactly the underlying search result, carrying all
three fields but not necessarily equal lengths. -/
theorem query_data_field_validation (init : Bool) (outcome : ChromaOutcome) :
    (queryData init outcome = defaultResponse ∧ resultLenOk defaultResponse = true) ∨
    (∃ r, outcome = .result (.dict r) ∧ r.documents.isSome = true ∧ r.metadatas.isSome = true ∧
      r.distances.isSome = true ∧ queryData init outcome = r) := by
  cases init with
  | false => exact Or.inl ⟨rfl, rfl⟩
  | true =>
    cases outcome with
    | raised => exact Or.inl ⟨rfl, rfl⟩
    | result v =>
      cases v with
      | pyNone => exact Or.inl ⟨rfl, rfl⟩
      | notDict => exact Or.inl ⟨rfl, rfl⟩
      | dict r =>
        rcases hdoc : r.documents with _ | docs
        · exact Or.inl ⟨by simp [queryData, hdoc], rfl⟩
        · rcases hmet : r.metadatas with _ | metas
          · exact Or.inl ⟨by simp [queryData, hmet], rfl⟩
          · rcases hdis : r.distances with _ | dis
            · exact Or.inl ⟨by simp [queryData, hdis], rfl⟩
            · exact Or.inr ⟨r, rfl, by simp [hdoc], by simp [hmet], by simp [hdis],
                by simp [queryData, hdoc, hmet, hdis]⟩

theorem clientsGet_some_hasKey (d : List (String × Option Client)) (k : String) (c : Client)
    (h : clientsGet d k = some c) : hasKey d k = true := by
  unfold clientsGet at h
  rcases hf : d.find? (fun p => p.1 = k) with _ | p
  · rw [hf] at h; cases h
  · have hm := List.mem_of_find?_eq_some hf
    have hp := List.find?_some hf
    exact List.any_eq_true.mpr ⟨p, hm, hp⟩

/-- C7: switching backends is atomic — an unconfigured name fails with
the exact `"Model <name> not available"` message and leaves the manager
(including its active backend) unchanged; every failed `set_model`
(unconfigured name, failed startup initialization, or failing re-probe)
leaves the state unchanged; a successful switch sets the active backend
to the requested name with the success message.  The handler-level
`set_model` behaves the same way for unavailable names. -/
theorem set_active_atomic (mm : ModelManager) (probe : String → Option String) (name : String) :
    (hasKey mm.clients name = false →
      setModel mm probe name = ((false, "Model " ++ name ++ " not available"), mm)) ∧
    ((setModel mm probe name).1.1 = false → (setModel mm probe name).2 = mm) ∧
    ((setModel mm probe name).1.1 = true →
      ((setModel mm probe name).2).current = name ∧
      (setModel mm probe name).1.2 = "Successfully switched to " ++ name) ∧
    (∀ hs : HandlerState, (availableModels hs.mm).contains name = false →
      handlerSetModel hs name = ((false, "Model " ++ name ++ " not available"), hs)) := by
  refine ⟨?_, ?_, ?_, ?_⟩
  · intro h
    have hf : mm.clients.find? (fun p => p.1 = name) = none := by
      rw [List.find?_eq_none]
      intro p hp
      exact List.any_eq_false.mp h p hp
    unfold setModel
    simp only [hf]
  · intro h
    unfold setModel at h ⊢
    rcases hf : mm.clients.find? (fun p => p.1 = name) with _ | p
    · simp only [hf]
    · simp only [hf] at h ⊢
      rcases hp2 : p.2 with _ | c
      · simp only [hp2]
      · simp only [hp2] at h ⊢
        rcases hpr : probe name with _ | e
        · simp only [hpr] at h; cases h
        · simp only [hpr]
  · intro h
    unfold setModel at h ⊢
    rcases hf : mm.clients.find? (fun p => p.1 = name) with _ | p
    · simp only [hf] at h; cases h
    · simp only [hf] at h ⊢
      rcases hp2 : p.2 with _ | c
      · simp only [hp2] at h; cases h
      · simp only [hp2] at h ⊢
        rcases hpr : probe name with _ | e
        · simp [hpr]
        · simp only [hpr] at h; cases h
  · intro hs h
    unfold handlerSetModel
    rw [h]
    rfl

/-- Witness for C7: switching to an unconfigured name fails verbatim and
preserves the state. -/
theorem set_active_atomic_witness :
    setModel ⟨"A", "A", [("A", some 0)]⟩ (fun _ => none) "B" =
      ((false, "Model " ++ "B" ++ " not available"), ⟨"A", "A", [("A", some 0)]⟩) :=
  (set_active_atomic ⟨"A", "A", [("A", some 0)]⟩ (fun _ => none) "B").1 (by decide)

/-- C8: `get_client` returns the requested backend's client when one
exists; when no client exists under the requested name (unknown name or
a failed initialization) it returns the fixed fallback backend's client
— which is `none` exactly when the fallback's client is unavailable
too. -/
theorem get_client_requested_or_fallback (mm : ModelManager) (name : String)
    (hne : name ≠ "") :
    (∀ c, clientsGet mm.clients name = some c → getClient mm (some name) = some c) ∧
    (clientsGet mm.clients name = none →
      getClient mm (some name) = clientsGet mm.clients mm.fallback) := by
  constructor
  · intro c hc
    have hk := clientsGet_some_hasKey mm.clients name c hc
    unfold getClient
    simp only [hne, if_false, hk, if_true, hc]
  · intro h
    unfold getClient
    simp only [hne, if_false]
    by_cases hk : hasKey mm.clients name = true
    · simp only [hk, if_true, h]
      by_cases hfb : name = mm.fallback
      · simp [hfb, ← h]
      · simp [hfb]
    · simp only [Bool.not_eq_true] at hk
      simp only [hk, Bool.false_eq_true, if_false]
      rcases hf : clientsGet mm.clients mm.fallback with _ | c
      · simp [hf]
      · simp [hf]

/-- Witness for C8: an unknown requested name falls back to the fixed
fallback backend's client. -/
theorem get_client_requested_or_fallback_witness :
    getClient ⟨"A", "F", [("F", some 7)]⟩ (some "X") =
      clientsGet [("F", some 7)] "F" :=
  (get_client_requested_or_fallback ⟨"A", "F", [("F", some 7)]⟩ "X" (by decide)).2 (by decide)

/-- C6: numeric validation fails open — the answer is accepted when it
contains no extractable numeric values, when the metadata at index 0
yields no numeric context values, when `metadatas` is empty or missing
(the two in-check exception sources), and in general whenever the core
of the check raises. -/
theorem validation_fails_open (ans : String) (r : RawResult) :
    (extractNumericValues ans = ⟨[], []⟩ → validateResponse ans r = true) ∧
    (∀ m0 rest, r.metadatas = some (m0 :: rest) → contextValues m0 = [] →
      validateResponse ans r = true) ∧
    (r.metadatas = some [] → validateResponse ans r = true) ∧
    (r.metadatas = none → validateResponse ans r = true) ∧
    (validateResponseCore ans r = .error () → validateResponse ans r = true) := by
  refine ⟨?_, ?_, ?_, ?_, ?_⟩
  · intro h
    unfold validateResponse validateResponseCore
    simp [h]
  · intro m0 rest hm hcv
    unfold validateResponse validateResponseCore
    by_cases he : ((extractNumericValues ans).monetary.isEmpty &&
        (extractNumericValues ans).percentages.isEmpty) = true
    · simp [he]
    · simp only [Bool.not_eq_true] at he
      simp [he, hm, hcv, pyMax]
  · intro hm
    unfold validateResponse validateResponseCore
    by_cases he : ((extractNumericValues ans).monetary.isEmpty &&
        (extractNumericValues ans).percentages.isEmpty) = true
    · simp [he]
    · simp only [Bool.not_eq_true] at he
      simp [he, hm]
  · intro hm
    unfold validateResponse validateResponseCore
    by_cases he : ((extractNumericValues ans).monetary.isEmpty &&
        (extractNumericValues ans).percentages.isEmpty) = true
    · simp [he]
    · simp only [Bool.not_eq_true] at he
      simp [he, hm, contextValues, pyMax]
  · intro h
    unfold validateResponse
    rw [h]

/-- Witness for C6: an answer with no numeric tokens is accepted. -/
theorem validation_fails_open_witness :
    validateResponse "hello" ⟨some [[]], some [[]], some [[]], some [[]]⟩ = true :=
  (validation_fails_open "hello" ⟨some [[]], some [[]], some [[]], some [[]]⟩).1 (by decide)

/-- C3: retrieval failures fail closed — a falsy, non-dict, or
field-incomplete retrieval result, and an empty top-level document list,
each short-circuit `process_query` into the corresponding fixed
user-facing message (the empty-document case yielding the fixed
"I couldn't find any relevant data..." message), for every backend
behaviour and without raising (the embedded orchestrator is a total
function into strings). -/
theorem no_data_fails_closed (hs : HandlerState) (b : BackendOutcome) (r : RawResult) :
    processQuery hs .pyNone b = msgTroubleAccess ∧
    processQuery hs .notDict b = msgBadStructure ∧
    ((r.documents = none ∨ r.metadatas = none ∨ r.distances = none) →
      processQuery hs (.dict r) b = msgIncomplete) ∧
    (r.documents = some [] → r.metadatas.isSome = true → r.distances.isSome = true →
      processQuery hs (.dict r) b = msgNoRelevantData) ∧
    (∀ ds, r.documents = some ([] :: ds) → r.metadatas.isSome = true →
      r.distances.isSome = true → processQuery hs (.dict r) b = msgNoRelevantData) := by
  refine ⟨rfl, rfl, ?_, ?_, ?_⟩
  · rintro (h | h | h)
    · unfold processQuery
      simp [h]
    · rcases hd : r.documents with _ | docs
      · unfold processQuery; simp [hd]
      · unfold processQuery; simp [hd, h]
    · rcases hd : r.documents with _ | docs
      · unfold processQuery; simp [hd]
      · rcases hm : r.metadatas with _ | metas
        · unfold processQuery; simp [hd, hm]
        · unfold processQuery; simp [hd, hm, h]
  · intro h hm hdist
    obtain ⟨metas, hm'⟩ := Option.isSome_iff_exists.mp hm
    obtain ⟨dist, hdist'⟩ := Option.isSome_iff_exists.mp hdist
    unfold processQuery
    simp [h, hm', hdist']
  · intro ds h hm hdist
    obtain ⟨metas, hm'⟩ := Option.isSome_iff_exists.mp hm
    obtain ⟨dist, hdist'⟩ := Option.isSome_iff_exists.mp hdist
    unfold processQuery
    simp [h, hm', hdist']

/-- Witness for C3: an empty document list yields the fixed no-data
message. -/
theorem no_data_fails_closed_witness :
    processQuery ⟨"OpenAI GPT-4", ⟨"OpenAI GPT-4", "OpenAI GPT-4", []⟩⟩
        (.dict ⟨some [], some [[]], some [[]], some [[]]⟩) .raised = msgNoRelevantData :=
  (no_data_fails_closed ⟨"OpenAI GPT-4", ⟨"OpenAI GPT-4", "OpenAI GPT-4", []⟩⟩ .raised
      ⟨some [], some [[]], some [[]], some [[]]⟩).2.2.2.1 rfl rfl rfl

/-- C1 (amended): when the orchestration reaches validation (well-formed
retrieval result, non-empty context entries, available client and
configured model), the validation bound is computed from the single
per-key context dict built across the retrieved metadata — later
retrieved rows overwrite earlier values for the same key — NOT from the
set of all numeric values present in the metadata.  With `mx` the
maximum over that dict's (last-written) values, a backend answer with at
least one extracted numeric token is accepted and returned verbatim
whenever every extracted value is `≤ mx * 1.1` (exactly 1.1 times `mx`
is accepted), and the fixed rejection ("please rephrase") message is
returned whenever some extracted value exceeds that bound.  When no
retrieved row repeats a key of an earlier row, `mx` coincides with the
maximum numeric value found across the retrieved metadata. -/
theorem numeric_claim_bound (hs : HandlerState) (r : RawResult) (ans : String)
    (d0 : List String) (drest : List (List String)) (m0 : List Metadata)
    (mrest : List (List Metadata)) (dist : List (List ℚ)) (mx : ℚ)
    (hdoc : r.documents = some (d0 :: drest))
    (hd0 : d0 ≠ [])
    (hmeta : r.metadatas = some (m0 :: mrest))
    (hdist : r.distances = some dist)
    (hlen : d0.length = m0.length)
    (hent : contextEntries d0 m0 ≠ [])
    (hcli : (getClient hs.mm none).isSome = true)
    (hcfg : availableModelNames.contains hs.currentModel = true)
    (hvals : (extractNumericValues ans).monetary ++ (extractNumericValues ans).percentages ≠ [])
    (hmx : pyMax ((contextValues m0).map Prod.snd) = some mx) :
    ((∀ v ∈ (extractNumericValues ans).monetary ++ (extractNumericValues ans).percentages,
        v ≤ mx * (11 / 10)) →
      processQuery hs (.dict r) (.content ans) = ans) ∧
    ((∃ v ∈ (extractNumericValues ans).monetary ++ (extractNumericValues ans).percentages,
        mx * (11 / 10) < v) →
      processQuery hs (.dict r) (.content ans) = msgValidationFailed) := by
  have hne : ((extractNumericValues ans).monetary.isEmpty &&
      (extractNumericValues ans).percentages.isEmpty) = false := by
    cases hm1 : (extractNumericValues ans).monetary.isEmpty <;>
      cases hp1 : (extractNumericValues ans).percentages.isEmpty <;>
        simp_all [List.isEmpty_iff]
  have hval : validateResponse ans r =
      ((extractNumericValues ans).monetary ++ (extractNumericValues ans).percentages).all
        (fun v => !decide (v > mx * (11 / 10))) := by
    unfold validateResponse validateResponseCore
    simp [hne, hmeta, hmx]
  obtain ⟨c, hc⟩ := Option.isSome_iff_exists.mp hcli
  have hd0b : d0.isEmpty = false := by simpa [List.isEmpty_iff] using hd0
  have hentb : (contextEntries d0 m0).isEmpty = false := by
    simpa [List.isEmpty_iff] using hent
  have hred : processQuery hs (.dict r) (.content ans) =
      (if validateResponse ans r then ans else msgValidationFailed) := by
    unfold processQuery
    simp only [hdoc, hmeta, hdist, hd0b, hlen, hentb, hc, hcfg]
    simp
    cases validateResponse ans r <;> simp
  constructor
  · intro hb
    have hall : ((extractNumericValues ans).monetary ++
        (extractNumericValues ans).percentages).all
          (fun v => !decide (v > mx * (11 / 10))) = true := by
      rw [List.all_eq_true]
      intro v hv
      simpa [not_lt] using hb v hv
    rw [hred, hval, hall]
    rfl
  · rintro ⟨v, hv, hgt⟩
    have hall : ((extractNumericValues ans).monetary ++
        (extractNumericValues ans).percentages).all
          (fun v => !decide (v > mx * (11 / 10))) = false := by
      apply List.all_eq_false.mpr
      exact ⟨v, hv, by simpa using hgt⟩
    rw [hred, hval, hall]
    rfl

/-- Witness for C1: answer "5" against a retrieved metadata value of 10
(bound 11) is accepted and returned verbatim. -/
theorem numeric_claim_bound_witness :
    processQuery ⟨"OpenAI GPT-4", ⟨"OpenAI GPT-4", "OpenAI GPT-4", [("OpenAI GPT-4", some 0)]⟩⟩
        (.dict ⟨some [["row"]], some [[[("amount", .str "10")]]], some [[(0 : ℚ)]], none⟩)
        (.content "5") = "5" :=
  (numeric_claim_bound
      ⟨"OpenAI GPT-4", ⟨"OpenAI GPT-4", "OpenAI GPT-4", [("OpenAI GPT-4", some 0)]⟩⟩
      ⟨some [["row"]], some [[[("amount", .str "10")]]], some [[(0 : ℚ)]], none⟩
      "5" ["row"] [] [[("amount", .str "10")]] [] [[(0 : ℚ)]]
      (1 * (((10 : Nat) : ℚ) + ((0 : Nat) : ℚ) / 10 ^ 0))
      rfl (by decide) rfl rfl rfl (by decide) (by decide) (by decide)
      (by show ([1 * (((5 : Nat) : ℚ) + ((0 : Nat) : ℚ) / 10 ^ 0)] : List ℚ) ++ [] ≠ []
          simp)
      rfl).1
    (by intro v hv
        rw [show extractNumericValues "5" =
            ⟨[1 * (((5 : Nat) : ℚ) + ((0 : Nat) : ℚ) / 10 ^ 0)], []⟩ from rfl] at hv
        simp only [List.append_nil, List.mem_singleton] at hv
        rw [hv]
        norm_num)

/-- C1 counterexample: the claim's bound — 1.10 × the maximum numeric
value found across the retrieved metadata — is false of the code.  With
two retrieved rows `amount=100` then `amount=50` and backend answer
"100": the maximum across the metadata is 100, every extracted value
(100) is ≤ 1.10 × 100 = 110, so the claim says the answer is accepted
and returned verbatim — but the code's per-key dict ends as
`{"amount": 50}` (the later row overwrote the earlier value), its bound
is 55, and the rejection message is returned instead of the answer. -/
theorem numeric_claim_bound_counterexample :
    pyMax (specContextNumericValues
        [[("amount", MetaVal.str "100")], [("amount", MetaVal.str "50")]]) = some 100 ∧
    (∀ v ∈ (extractNumericValues "100").monetary ++ (extractNumericValues "100").percentages,
      v ≤ (100 : ℚ) * (11 / 10)) ∧
    processQuery ⟨"OpenAI GPT-4", ⟨"OpenAI GPT-4", "OpenAI GPT-4", [("OpenAI GPT-4", some 0)]⟩⟩
        (.dict ⟨some [["r1", "r2"]],
                some [[[("amount", MetaVal.str "100")], [("amount", MetaVal.str "50")]]],
                some [[(0 : ℚ)]], none⟩)
        (.content "100") = msgValidationFailed ∧
    msgValidationFailed ≠ "100" := by
  refine ⟨?_, ?_, ?_, by decide⟩
  · show pyMax [1 * (((100 : Nat) : ℚ) + ((0 : Nat) : ℚ) / 10 ^ 0),
        1 * (((50 : Nat) : ℚ) + ((0 : Nat) : ℚ) / 10 ^ 0)] = some 100
    norm_num [pyMax, max_def, List.foldl_cons, List.foldl_nil]
  · intro v hv
    rw [show extractNumericValues "100" =
        ⟨[1 * (((100 : Nat) : ℚ) + ((0 : Nat) : ℚ) / 10 ^ 0)], []⟩ from rfl] at hv
    simp only [List.append_nil, List.mem_singleton] at hv
    rw [hv]
    norm_num
  · have hval : validateResponse "100"
        ⟨some [["r1", "r2"]],
         some [[[("amount", MetaVal.str "100")], [("amount", MetaVal.str "50")]]],
         some [[(0 : ℚ)]], none⟩ = false := by
      show ([1 * (((100 : Nat) : ℚ) + ((0 : Nat) : ℚ) / 10 ^ 0)].all
        (fun v =>
          !decide (v > (1 * (((50 : Nat) : ℚ) + ((0 : Nat) : ℚ) / 10 ^ 0)) * (11 / 10)))) = false
      simp only [List.all_cons, List.all_nil, Bool.and_true, Bool.not_eq_false',
        decide_eq_true_eq]
      norm_num
    have hshow : processQuery
        ⟨"OpenAI GPT-4", ⟨"OpenAI GPT-4", "OpenAI GPT-4", [("OpenAI GPT-4", some 0)]⟩⟩
        (.dict ⟨some [["r1", "r2"]],
                some [[[("amount", MetaVal.str "100")], [("amount", MetaVal.str "50")]]],
                some [[(0 : ℚ)]], none⟩)
        (.content "100") =
        (if !validateResponse "100"
            ⟨some [["r1", "r2"]],
             some [[[("amount", MetaVal.str "100")], [("amount", MetaVal.str "50")]]],
             some [[(0 : ℚ)]], none⟩ then msgValidationFailed
         else "100") := rfl
    rw [hshow, hval]
    rfl

/-- C9: the orchestrator never crashes the caller — for every handler
state, every retrieval-result shape, and every backend behaviour
(including raising), `process_query` is a total function into strings,
and its value is either one of the fixed user-readable failure messages
or the backend's validated answer text. -/
theorem process_query_never_raises (hs : HandlerState) (retr : Retrieved)
    (b : BackendOutcome) :
    processQuery hs retr b ∈ fixedMessages ∨
    ∃ ans, b = .content ans ∧ processQuery hs retr b = ans := by
  cases retr with
  | pyNone => exact Or.inl (by simp [processQuery, fixedMessages])
  | notDict => exact Or.inl (by simp [processQuery, fixedMessages])
  | dict r =>
    rcases hd : r.documents with _ | docs
    · exact Or.inl (by unfold processQuery; simp [hd, fixedMessages])
    rcases hm : r.metadatas with _ | metas
    · exact Or.inl (by unfold processQuery; simp [hd, hm, fixedMessages])
    rcases hdi : r.distances with _ | dist
    · exact Or.inl (by unfold processQuery; simp [hd, hm, hdi, fixedMessages])
    cases docs with
    | nil => exact Or.inl (by unfold processQuery; simp [hd, hm, hdi, fixedMessages])
    | cons d0 drest =>
      by_cases hd0 : d0.isEmpty = true
      · exact Or.inl (by unfold processQuery; simp [hd, hm, hdi, hd0, fixedMessages])
      replace hd0 : d0.isEmpty = false := by simpa using hd0
      cases metas with
      | nil => exact Or.inl (by unfold processQuery; simp [hd, hm, hdi, hd0, fixedMessages])
      | cons m0 mrest =>
        by_cases hlen : d0.length = m0.length
        case neg =>
          exact Or.inl (by unfold processQuery; simp [hd, hm, hdi, hd0, hlen, fixedMessages])
        case pos =>
        by_cases hent : (contextEntries d0 m0).isEmpty = true
        · exact Or.inl (by
            unfold processQuery; simp [hd, hm, hdi, hd0, hlen, hent, fixedMessages])
        replace hent : (contextEntries d0 m0).isEmpty = false := by simpa using hent
        rcases hcl : getClient hs.mm none with _ | c
        · exact Or.inl (by
            unfold processQuery; simp [hd, hm, hdi, hd0, hlen, hent, hcl, fixedMessages])
        by_cases hcfg : availableModelNames.contains hs.currentModel = true
        case neg =>
          have hcfgm : hs.currentModel ∉ availableModelNames := by simpa using hcfg
          exact Or.inl (by
            unfold processQuery
            simp [hd, hm, hdi, hd0, hlen, hent, hcl, hcfgm, fixedMessages])
        case pos =>
        have hcfgm : hs.currentModel ∈ availableModelNames := by simpa using hcfg
        cases b with
        | raised =>
          exact Or.inl (by
            unfold processQuery
            simp [hd, hm, hdi, hd0, hlen, hent, hcl, hcfgm, fixedMessages])
        | noChoices =>
          exact Or.inl (by
            unfold processQuery
            simp [hd, hm, hdi, hd0, hlen, hent, hcl, hcfgm, fixedMessages])
        | content ans =>
          by_cases hv : validateResponse ans r = true
          · exact Or.inr ⟨ans, rfl, by
              unfold processQuery
              simp [hd, hm, hdi, hd0, hlen, hent, hcl, hcfgm, hv]⟩
          · replace hv : validateResponse ans r = false := by simpa using hv
            exact Or.inl (by
              unfold processQuery
              simp [hd, hm, hdi, hd0, hlen, hent, hcl, hcfgm, hv, fixedMessages])

end FinCsv
